/-
Verification of the Leo request-orchestration core.

Shallow embedding of the Rust sources (src/agent/message.rs, src/agent/llm/mod.rs,
src/error.rs, src/tools/runner.rs, src/agent/tokens.rs, src/agent/context.rs,
src/agent/loop_impl.rs, src/auth/credentials.rs, src/auth/provider.rs,
src/auth/callback_server.rs) together with theorems settling the behavioural
claims about the orchestration loop, context assembly, token budgeting,
credential expiry, OAuth callback parsing, token refresh and the tool registry.

Modelling conventions:
- Rust machine integers indexing lists become Nat; timestamps (chrono DateTime)
  become Int seconds since an arbitrary epoch; chrono Duration::minutes 5 is 300.
- serde_json::Value becomes the inductive Json below.
- Async stateful collaborators (the LLM client behind &self with interior
  mutability, the HTTP token endpoint, the credential file) become explicit
  state passing / oracle arguments, so every definition stays executable.
- Fallible Rust code returning Result<T, Error> becomes Except Error T.
-/
import Mathlib

namespace Leo

/-- serde_json::Value, as used for tool arguments and parameter schemas. -/
inductive Json where
  | null : Json
  | bool (b : Bool) : Json
  | num (n : Int) : Json
  | str (s : String) : Json
  | arr (elems : List Json) : Json
  | obj (fields : List (String × Json)) : Json
deriving Repr

/-- src/error.rs: the Error enum (wrapped foreign error payloads kept as their
display strings). -/
inductive Error where
  | Config (msg : String)
  | Llm (msg : String)
  | Tool (msg : String)
  | Memory (msg : String)
  | Io (msg : String)
  | Telegram (msg : String)
  | Json (msg : String)
  | Http (msg : String)
  | MaxIterations
  | Auth (msg : String)
  | OAuth (msg : String)
  | Other (msg : String)
deriving Repr, DecidableEq

/-- The thiserror-derived Display implementation of src/error.rs
(what `format!("{}", e)` produces). -/
def Error.display : Error → String
  | .Config msg => "Configuration error: " ++ msg
  | .Llm msg => "LLM error: " ++ msg
  | .Tool msg => "Tool error: " ++ msg
  | .Memory msg => "Memory error: " ++ msg
  | .Io msg => "IO error: " ++ msg
  | .Telegram msg => "Telegram error: " ++ msg
  | .Json msg => "JSON error: " ++ msg
  | .Http msg => "HTTP error: " ++ msg
  | .MaxIterations => "Max iterations reached"
  | .Auth msg => "Authentication error: " ++ msg
  | .OAuth msg => "OAuth error: " ++ msg
  | .Other msg => msg

/-- src/agent/message.rs: Role. -/
inductive Role where
  | system
  | user
  | assistant
  | tool
deriving Repr, DecidableEq

/-- src/agent/message.rs: ToolCallRequest. -/
structure ToolCallRequest where
  id : String
  name : String
  arguments : Json
deriving Repr

/-- src/agent/message.rs: Message. -/
structure Message where
  role : Role
  content : String
  tool_call_id : Option String
  tool_calls : Option (List ToolCallRequest)
deriving Repr

/-- Message::system. -/
def Message.system (content : String) : Message :=
  { role := .system, content := content, tool_call_id := none, tool_calls := none }

/-- Message::user. -/
def Message.user (content : String) : Message :=
  { role := .user, content := content, tool_call_id := none, tool_calls := none }

/-- Message::assistant. -/
def Message.assistant (content : String) : Message :=
  { role := .assistant, content := content, tool_call_id := none, tool_calls := none }

/-- Message::assistant_with_tools. -/
def Message.assistant_with_tools (content : String) (tool_calls : List ToolCallRequest) :
    Message :=
  { role := .assistant, content := content, tool_call_id := none, tool_calls := some tool_calls }

/-- Message::tool_result. -/
def Message.tool_result (call_id : String) (result : String) : Message :=
  { role := .tool, content := result, tool_call_id := some call_id, tool_calls := none }

/-- src/agent/llm/mod.rs: Usage. -/
structure Usage where
  prompt_tokens : Nat
  completion_tokens : Nat
  total_tokens : Nat
deriving Repr, DecidableEq

/-- Usage::default(). -/
def Usage.default : Usage := ⟨0, 0, 0⟩

/-- src/agent/llm/mod.rs: LlmResponse. -/
structure LlmResponse where
  content : Option String
  tool_calls : List ToolCallRequest
  finish_reason : String
  usage : Usage
deriving Repr

/-- LlmResponse::text. -/
def LlmResponse.text (content : String) : LlmResponse :=
  { content := some content, tool_calls := [], finish_reason := "stop", usage := Usage.default }

/-- LlmResponse::has_tool_calls. -/
def LlmResponse.has_tool_calls (r : LlmResponse) : Bool :=
  !r.tool_calls.isEmpty

/-- src/agent/message.rs: Response (the agent's final answer). -/
structure Response where
  content : String
  channel : String
  chat_id : String
  media : List String
deriving Repr, DecidableEq

/-- Response::new. -/
def Response.new (content : String) : Response :=
  { content := content, channel := "cli", chat_id := "default", media := [] }

/-- src/tools/runner.rs: ToolDefinition. -/
structure ToolDefinition where
  name : String
  description : String
  parameters : Json

/-- src/tools/mod.rs: the Tool trait object, as a record of its methods.
`execute` is async over &self, so it is modelled as a pure function of its
parameters. -/
structure Tool where
  name : String
  description : String
  parameters : Json
  exec : Json → Except Error String

/-- Tool::to_definition (default trait method in src/tools/mod.rs). -/
def Tool.to_definition (t : Tool) : ToolDefinition :=
  { name := t.name, description := t.description, parameters := t.parameters }

/-- src/tools/runner.rs: ToolRunner. The HashMap<String, Box<dyn Tool>> is
modelled as an association list with unique keys; HashMap::insert replaces the
value bound to an existing key. -/
structure ToolRunner where
  tools : List (String × Tool)

/-- HashMap::insert semantics on the association-list model: replace in place
when the key is present, append otherwise. -/
def insertEntry (entries : List (String × Tool)) (key : String) (tool : Tool) :
    List (String × Tool) :=
  if entries.any (fun p => p.1 = key) then
    entries.map (fun p => if p.1 = key then (key, tool) else p)
  else
    entries ++ [(key, tool)]

/-- HashMap::get on the association-list model (keys are unique, so the first
match is the binding). -/
def findEntry (entries : List (String × Tool)) (key : String) : Option Tool :=
  (entries.find? (fun p => p.1 = key)).map (fun p => p.2)

/-- ToolRunner::new. -/
def ToolRunner.new : ToolRunner := ⟨[]⟩

/-- ToolRunner::register — `self.tools.insert(tool.name().to_string(), Box::new(tool))`. -/
def ToolRunner.register (r : ToolRunner) (tool : Tool) : ToolRunner :=
  ⟨insertEntry r.tools tool.name tool⟩

/-- ToolRunner::definitions — map every registered tool to its definition. -/
def ToolRunner.definitions (r : ToolRunner) : List ToolDefinition :=
  r.tools.map (fun p => p.2.to_definition)

/-- ToolRunner::execute — dispatch by exact name, unknown name is Error::Tool. -/
def ToolRunner.execute (r : ToolRunner) (name : String) (params : Json) :
    Except Error String :=
  match findEntry r.tools name with
  | none => .error (.Tool ("Unknown tool: " ++ name))
  | some tool => tool.exec params

/-- ToolRunner::has. -/
def ToolRunner.has (r : ToolRunner) (name : String) : Bool :=
  (findEntry r.tools name).isSome

/-- src/agent/tokens.rs: CHARS_PER_TOKEN. -/
def CHARS_PER_TOKEN : Nat := 4

/-- src/agent/tokens.rs: estimate_tokens — `(text.len() + CHARS_PER_TOKEN - 1)
/ CHARS_PER_TOKEN`. Rust's `str::len` is the UTF-8 byte length, hence
`String.utf8ByteSize`. -/
def estimate_tokens (text : String) : Nat :=
  (text.utf8ByteSize + CHARS_PER_TOKEN - 1) / CHARS_PER_TOKEN

/-- The backwards walk of src/agent/tokens.rs truncate_history, on the reversed
message list: how many messages, scanned from most recent to oldest, fit before
the accumulated estimate would exceed the budget.  The Rust loop's `start_idx`
is `messages.len() - keepCount`. -/
def keepCount (rev : List String) (max_tokens : Nat) (total : Nat) : Nat :=
  match rev with
  | [] => 0
  | msg :: rest =>
    let msg_tokens := estimate_tokens msg
    if total + msg_tokens > max_tokens then 0
    else keepCount rest max_tokens (total + msg_tokens) + 1

/-- src/agent/tokens.rs: truncate_history — keep the longest suffix of most
recent messages whose accumulated token estimate stays within budget. -/
def truncate_history (messages : List String) (max_tokens : Nat) : List String :=
  messages.drop (messages.length - keepCount messages.reverse max_tokens 0)

/-- src/agent/context.rs: MAX_HISTORY_MESSAGES. -/
def MAX_HISTORY_MESSAGES : Nat := 40

/-- src/agent/context.rs: Context.  The memory collaborator appears as the
value of `memory.get_context()`, the skills collaborator as the value of
`skills.build_summary()` (the Context Assembler consumes nothing else of
them); `now` is the chrono::Local::now() formatted timestamp, an environmental
input of get_identity. -/
structure Context where
  memoryContext : Except Error String
  skillsSummary : String
  tool_runner : ToolRunner
  workspace : String
  cached_bootstrap : String
  now : String

/-- Context::get_identity — the fixed identity block (src/agent/context.rs),
with the current time and workspace spliced in. -/
def Context.get_identity (ctx : Context) : String :=
  "# Leo 🦁\n\nYou are Leo, an intelligent AI Personal Assistant running locally. 🦁\n\n" ++
  "## Current Time\n" ++ ctx.now ++ "\n\n" ++
  "## Workspace\nYour workspace is: `" ++ ctx.workspace ++ "`\n\n" ++
  "**IMPORTANT**: When the user mentions files or folders without full paths:\n" ++
  "- Assume they mean files inside the workspace above\n" ++
  "- Use relative paths from the workspace (e.g., \"src/main.rs\" not \"/full/path/src/main.rs\")\n" ++
  "- NEVER ask for the full path - just try the relative path first\n" ++
  "- Common locations: \"documents\" = ~/Documents, \"desktop\" = ~/Desktop\n\n" ++
  "## Tools\nYou have access to these tools:\n" ++
  "- `read_file`, `write_file`, `edit`, `list_dir` - File operations\n" ++
  "- `find_files` - Find files by pattern (*.rs, config*, etc.)\n" ++
  "- `search` - Search text in files (supports regex or literal)\n" ++
  "- `exec` - Run shell commands\n" ++
  "- `git` - Git operations\n" ++
  "- `web_search`, `web_fetch` - Web access\n" ++
  "- `memory` - Long-term memory (read/add)\n\n" ++
  "## Memory Instructions\n**CRITICAL**: When the user tells you to remember ANYTHING - names, preferences, identity, aim, purpose:\n\n" ++
  "Just use the memory tool immediately:\n```\nmemory(action=\"add\", content=\"[what to remember]\")\n```\n\n" ++
  "Examples:\n" ++
  "- \"Call me X\" → memory(action=\"add\", content=\"Owner\x27s name is X\")\n" ++
  "- \"Your name is Cat\" → memory(action=\"add\", content=\"My name is now Cat\")\n" ++
  "- \"Your aim is to help me code\" → memory(action=\"add\", content=\"My aim is to help with coding\")\n\n" ++
  "Do NOT read multiple files. Just save to memory and confirm.\n\n" ++
  "Always be helpful, accurate, and concise. When using tools, just do it—don\x27t explain unless asked."

/-- Context::build_system_prompt — identity, then cached bootstrap text,
memory block and skills block when non-empty, joined with a separator. -/
def Context.build_system_prompt (ctx : Context) : String :=
  let parts := [ctx.get_identity]
  let parts := if ctx.cached_bootstrap ≠ "" then parts ++ [ctx.cached_bootstrap] else parts
  let parts :=
    match ctx.memoryContext with
    | .ok memory => if memory ≠ "" then parts ++ ["# Memory\n\n" ++ memory] else parts
    | .error _ => parts
  let parts :=
    if ctx.skillsSummary ≠ "" then
      parts ++
        ["# Skills\n\nThe following skills extend your capabilities:\n\n" ++ ctx.skillsSummary]
    else parts
  String.intercalate ("\n\n---\n\n") parts

/-- Context::build_messages — history windowing, then
[system] ++ windowed history ++ [user(current)]. -/
def Context.build_messages (ctx : Context) (history : List Message) (current : String) :
    List Message :=
  let windowed_history :=
    if history.length > MAX_HISTORY_MESSAGES then
      history.drop (history.length - MAX_HISTORY_MESSAGES)
    else history
  (Message.system ctx.build_system_prompt :: windowed_history) ++ [Message.user current]

/-- src/agent/loop_impl.rs: AgentLoop over an LlmClient.  The client's `chat`
is async over &self with interior mutability (e.g. the test FakeLlmClient pops
a queue behind a Mutex), so it is modelled as a state-passing function over an
arbitrary client-state type σ: it always yields the successor state, and the
number of backend calls is the number of state steps. -/
structure AgentLoop (σ : Type) where
  client : σ → List Message → List ToolDefinition → Except Error LlmResponse × σ
  max_iterations : Nat

/-- AgentLoop::execute_tool — run the call through the registry, fold an error
into the textual result `Error: <display>`. -/
def AgentLoop.execute_tool (ctx : Context) (tool_call : ToolCallRequest) : String :=
  match ctx.tool_runner.execute tool_call.name tool_call.arguments with
  | .ok result => result
  | .error e => "Error: " ++ e.display

/-- The `for iteration in 0..self.max_iterations` loop body of AgentLoop::run,
as a fuel recursion (fuel = remaining iterations).  Falling out of the loop is
Err(Error::MaxIterations). -/
def AgentLoop.runAux {σ : Type}
    (ctx : Context)
    (client : σ → List Message → List ToolDefinition → Except Error LlmResponse × σ) :
    Nat → σ → List Message → Except Error Response × σ
  | 0, s, _ => (.error .MaxIterations, s)
  | n + 1, s, messages =>
    let tools := ctx.tool_runner.definitions
    match client s messages tools with
    | (.error e, s') => (.error e, s')
    | (.ok response, s') =>
      if !response.has_tool_calls then
        (.ok (Response.new (response.content.getD (""))), s')
      else
        let assistant_msg :=
          Message.assistant_with_tools (response.content.getD ("")) response.tool_calls
        let results := response.tool_calls.map
          (fun tc => Message.tool_result tc.id (AgentLoop.execute_tool ctx tc))
        AgentLoop.runAux ctx client n s' (messages ++ assistant_msg :: results)

/-- AgentLoop::run — note line 28 of src/agent/loop_impl.rs builds the initial
message list with an empty history slice: `ctx.build_messages(&[], &message.content)`.
`ctx` is &mut in the source but run mutates nothing through it (tool dispatch
is &self), so it is passed by value; `s` is the client's initial state. -/
def AgentLoop.run {σ : Type} (l : AgentLoop σ) (s : σ) (message : Message) (ctx : Context) :
    Except Error Response × σ :=
  AgentLoop.runAux ctx l.client l.max_iterations s (ctx.build_messages [] message.content)

/-- Observation wrapper: any client, instrumented to count its backend calls.
One call to the wrapped client is exactly one call to the underlying one. -/
def countingClient {σ : Type}
    (client : σ → List Message → List ToolDefinition → Except Error LlmResponse × σ) :
    σ × Nat → List Message → List ToolDefinition → Except Error LlmResponse × (σ × Nat) :=
  fun s msgs tools =>
    let out := client s.1 msgs tools
    (out.1, (out.2, s.2 + 1))

/-- Observation wrapper: any client, instrumented to record the message lists
it is called with, in call order. -/
def recordingClient {σ : Type}
    (client : σ → List Message → List ToolDefinition → Except Error LlmResponse × σ) :
    σ × List (List Message) → List Message → List ToolDefinition →
      Except Error LlmResponse × (σ × List (List Message)) :=
  fun s msgs tools =>
    let out := client s.1 msgs tools
    (out.1, (out.2, s.2 ++ [msgs]))

/-- src/auth/credentials.rs: Credentials.  chrono DateTime<Utc> timestamps are
modelled as Int seconds. -/
structure Credentials where
  access_token : String
  refresh_token : Option String
  token_type : String
  expires_at : Option Int
  scope : Option String
deriving Repr, DecidableEq

/-- default_token_type(). -/
def default_token_type : String := "Bearer"

/-- Credentials::new — `expires_at = expires_in_secs.map(|secs| Utc::now() + secs)`;
`now` is the wall clock at construction. -/
def Credentials.new (now : Int) (access_token : String) (refresh_token : Option String)
    (expires_in_secs : Option Int) : Credentials :=
  { access_token := access_token
    refresh_token := refresh_token
    token_type := default_token_type
    expires_at := expires_in_secs.map (fun secs => now + secs)
    scope := none }

/-- Credentials::is_expired — `Utc::now() + Duration::minutes(5) >= expires`,
with `now` the wall clock at the check and the 5-minute buffer 300 seconds. -/
def Credentials.is_expired (now : Int) (c : Credentials) : Bool :=
  match c.expires_at with
  | some expires => decide (now + 300 ≥ expires)
  | none => false

/-- Credentials::can_refresh. -/
def Credentials.can_refresh (c : Credentials) : Bool :=
  c.refresh_token.isSome

/-- src/auth/provider.rs: TokenResponse (the token endpoint's parsed JSON). -/
structure TokenResponse where
  access_token : String
  refresh_token : Option String
  expires_in : Option Int
  token_type : String
  scope : Option String
deriving Repr, DecidableEq

/-- GeminiAuthProvider::refresh_token.  The POST to the token endpoint together
with its status check and JSON parsing is the oracle argument `endpoint`
(network I/O); the refresh-token preservation logic is the code under
verification: `token_response.refresh_token.or_else(|| Some(refresh_token))`. -/
def GeminiAuthProvider.refresh_token (now : Int) (endpoint : Except Error TokenResponse)
    (refresh_tok : String) : Except Error Credentials :=
  match endpoint with
  | .error e => .error e
  | .ok token_response =>
    let refresh := token_response.refresh_token.orElse (fun _ => some refresh_tok)
    .ok (Credentials.new now token_response.access_token refresh token_response.expires_in)

/-- The outcome of one get_valid_token call: its returned value plus every
Credentials record passed to save_credentials, in write order (the credential
file writes, modelled as succeeding). -/
structure TokenFlowOutcome where
  result : Except Error String
  saved : List Credentials
deriving Repr

/-- Lines 117-120 of src/auth/provider.rs: the full-reauthorization tail of
get_valid_token — `authorize().await?` (browser + callback + exchange, the
oracle argument) then persist and return the access token. -/
def authorizeOutcome (authorize_result : Except Error Credentials) : TokenFlowOutcome :=
  match authorize_result with
  | .error e => ⟨.error e, []⟩
  | .ok creds => ⟨.ok creds.access_token, [creds]⟩

/-- GeminiAuthProvider::get_valid_token.  Oracles: `load_result` is
load_credentials(), `refresh_result` is the token endpoint's answer if a
refresh is attempted, `authorize_result` the full browser flow's answer if
reauthorization is reached. -/
def GeminiAuthProvider.get_valid_token (now : Int)
    (load_result : Except Error (Option Credentials))
    (refresh_result : Except Error TokenResponse)
    (authorize_result : Except Error Credentials) : TokenFlowOutcome :=
  match load_result with
  | .error e => ⟨.error e, []⟩
  | .ok (some creds) =>
    if !Credentials.is_expired now creds then ⟨.ok creds.access_token, []⟩
    else
      match creds.refresh_token with
      | some r =>
        match GeminiAuthProvider.refresh_token now refresh_result r with
        | .ok new_creds => ⟨.ok new_creds.access_token, [new_creds]⟩
        | .error _ => authorizeOutcome authorize_result
      | none => authorizeOutcome authorize_result
  | .ok none => authorizeOutcome authorize_result

/-- src/auth/callback_server.rs: AuthorizationResult. -/
structure AuthorizationResult where
  code : String
  state : Option String
deriving Repr, DecidableEq

/-- Rust str::split(sep) semantics on characters: n separators yield n + 1
pieces, empty pieces kept (structurally recursive so that it evaluates inside
the kernel, unlike String.splitOn). -/
def splitOnChar (sep : Char) : List Char → List (List Char)
  | [] => [[]]
  | c :: rest =>
    let r := splitOnChar sep rest
    if c = sep then [] :: r
    else
      match r with
      | [] => [[c]]
      | h :: t => (c :: h) :: t

/-- Splitting at every character satisfying p (the piece boundaries of Rust
str::split_whitespace, before empty pieces are discarded). -/
def splitOnPred (p : Char → Bool) : List Char → List (List Char)
  | [] => [[]]
  | c :: rest =>
    let r := splitOnPred p rest
    if p c then [] :: r
    else
      match r with
      | [] => [[c]]
      | h :: t => (c :: h) :: t

/-- Rust str::split_whitespace: split at whitespace runs, no empty pieces. -/
def split_whitespace (s : String) : List String :=
  ((splitOnPred (fun c => c.isWhitespace) s.data).map String.mk).filter (fun x => x ≠ "")

/-- Rust str::lines().next(): the text up to the first newline, with one
trailing carriage return removed; None on the empty string. -/
def firstLine (request : String) : Option String :=
  if request = "" then none
  else
    let line := request.data.takeWhile (fun c => c ≠ '\n')
    some (String.mk (if line.getLast? = some '\r' then line.dropLast else line))

/-- Hexadecimal digit value, as used by percent-decoding. -/
def hexVal (c : Char) : Option Nat :=
  if '0' ≤ c ∧ c ≤ '9' then some (c.toNat - '0'.toNat)
  else if 'a' ≤ c ∧ c ≤ 'f' then some (c.toNat - 'a'.toNat + 10)
  else if 'A' ≤ c ∧ c ≤ 'F' then some (c.toNat - 'A'.toNat + 10)
  else none

/-- Query-component decoding of url::Url::query_pairs (form_urlencoded):
<+> becomes a space and %XX hex escapes are decoded; a malformed escape is kept
literally.  Modelled byte-for-byte for single-byte (ASCII) escapes; the url
crate additionally reassembles multi-byte UTF-8 escape sequences, which the
claims' inputs do not contain. -/
def decodeChars : List Char → List Char
  | [] => []
  | '+' :: rest => ' ' :: decodeChars rest
  | '%' :: h1 :: h2 :: rest =>
    match hexVal h1, hexVal h2 with
    | some a, some b => Char.ofNat (16 * a + b) :: decodeChars rest
    | _, _ => '%' :: decodeChars (h1 :: h2 :: rest)
  | c :: rest => c :: decodeChars rest

/-- Query-component decoding on strings. -/
def decodeComponent (s : String) : String :=
  String.mk (decodeChars s.data)

/-- form_urlencoded: split one `key=value` piece at the first equals sign
(value empty when absent). -/
def splitFirstEq (piece : List Char) : List Char × List Char :=
  (piece.takeWhile (fun c => c ≠ '='), (piece.dropWhile (fun c => c ≠ '=')).drop 1)

/-- url::Url::query_pairs on a raw query string: split on ampersands, skip
empty pieces, split each piece at its first equals sign, decode both sides. -/
def queryPairs (query : String) : List (String × String) :=
  (splitOnChar '&' query.data).filterMap (fun piece =>
    if piece = [] then none
    else
      let kv := splitFirstEq piece
      some (String.mk (decodeChars kv.1), String.mk (decodeChars kv.2)))

/-- The query of Url::parse("http://localhost" ++ path): the text after the
first question mark, fragment excluded.  Url::parse is modelled as total —
the callback paths the listener hands to it parse successfully. -/
def urlQuery (path : String) : Option String :=
  let before_fragment := path.data.takeWhile (fun c => c ≠ '#')
  match before_fragment.dropWhile (fun c => c ≠ '?') with
  | [] => none
  | _ :: rest => some (String.mk rest)

/-- The `for (key, value) in url.query_pairs()` loop of
parse_callback_request: repeated assignment, so the last occurrence of a key
wins. -/
def paramLast (pairs : List (String × String)) (key : String) : Option String :=
  pairs.foldl (fun acc p => if p.1 = key then some p.2 else acc) none

/-- The code extraction at the end of parse_callback_request: missing code is
a failure, otherwise success carrying the code and the received state. -/
def extractCode (code : Option String) (state : Option String) :
    Except Error AuthorizationResult :=
  match code with
  | none => .error (.OAuth ("Missing authorization code"))
  | some c => .ok ⟨c, state⟩

/-- src/auth/callback_server.rs: parse_callback_request. -/
def parse_callback_request (request : String) (expected_state : Option String) :
    Except Error AuthorizationResult :=
  match firstLine request with
  | none => .error (.OAuth ("Empty request"))
  | some first_line =>
    let parts := split_whitespace first_line
    if parts.length < 2 then .error (.OAuth ("Invalid request format"))
    else
      let path := parts.getD 1 ("")
      let pairs :=
        match urlQuery path with
        | none => []
        | some q => queryPairs q
      let code := paramLast pairs ("code")
      let state := paramLast pairs ("state")
      let error := paramLast pairs ("error")
      let error_description := paramLast pairs ("error_description")
      match error with
      | some err =>
        let description := error_description.getD ("Unknown error")
        .error (.OAuth ("Authorization failed: " ++ err ++ " - " ++ description))
      | none =>
        let state_failure : Option Error :=
          match expected_state with
          | some expected =>
            match state with
            | some s =>
              if s = expected then none
              else some (.OAuth ("State mismatch: expected " ++ expected ++ ", got " ++ s))
            | none => some (.OAuth ("Missing state parameter"))
          | none => none
        match state_failure with
        | some e => .error e
        | none => extractCode code state

/-! Concrete fixtures (mirroring Context::test and the test stub clients) -/

/-- Context::test — in-memory components, empty bootstrap. -/
def testContext : Context :=
  { memoryContext := .ok ("")
    skillsSummary := ""
    tool_runner := ToolRunner.new
    workspace := "/tmp/test"
    cached_bootstrap := ""
    now := "2025-01-01 00:00 (Wednesday)" }

/-- A stateless stub client answering every chat call with the same text
(FakeLlmClient::new with one endlessly repeated response). -/
def textClient (reply : String) :
    Unit → List Message → List ToolDefinition → Except Error LlmResponse × Unit :=
  fun s _ _ => (.ok (LlmResponse.text reply), s)

/-- The stub response that always requests one tool call. -/
def toolCallResponse : LlmResponse :=
  { content := none
    tool_calls := [⟨"tc_1", "read_file", Json.obj [("path", Json.str ("test.txt"))]⟩]
    finish_reason := "tool_calls"
    usage := Usage.default }

/-- A stub client that always requests a tool call. -/
def toolClient :
    Unit → List Message → List ToolDefinition → Except Error LlmResponse × Unit :=
  fun s _ _ => (.ok toolCallResponse, s)

/-- A tool whose execution always fails. -/
def failingTool : Tool :=
  { name := "boom"
    description := "always fails"
    parameters := Json.obj []
    exec := fun _ => .error (.Tool ("kaboom")) }

/-- A tool whose execution always succeeds. -/
def echoTool : Tool :=
  { name := "echo"
    description := "returns a fixed string"
    parameters := Json.obj []
    exec := fun _ => .ok ("success") }

/-- The test context with the failing tool registered. -/
def toolContext : Context :=
  { testContext with tool_runner := ToolRunner.new.register failingTool }

/-- A second tool carrying the same name as echoTool, to exhibit replacement. -/
def echoTool2 : Tool :=
  { name := "echo"
    description := "second registration under the same name"
    parameters := Json.obj []
    exec := fun _ => .ok ("second") }

/-- A stub response requesting the failing tool. -/
def boomCallResponse : LlmResponse :=
  { content := none
    tool_calls := [⟨"tc_1", "boom", Json.null⟩]
    finish_reason := "tool_calls"
    usage := Usage.default }

/-- A stub client that always requests the failing tool. -/
def boomClient :
    Unit → List Message → List ToolDefinition → Except Error LlmResponse × Unit :=
  fun s _ _ => (.ok boomCallResponse, s)

/-! Helper lemmas -/

theorem utf8ByteSize_data (s : String) : s.utf8ByteSize = String.utf8Len s.data := by
  cases s
  simp

theorem utf8ByteSize_append (s t : String) :
    (s ++ t).utf8ByteSize = s.utf8ByteSize + t.utf8ByteSize := by
  cases s with
  | mk a =>
    cases t with
    | mk b =>
      show String.utf8ByteSize ⟨a ++ b⟩ = _
      simp

theorem utf8Size_of_lt_128 (c : Char) (h : c.toNat < 128) : c.utf8Size = 1 := by
  simp only [Char.utf8Size]
  have hv : c.val ≤ UInt32.ofNatCore 127 Char.utf8Size.proof_1 := by
    rw [UInt32.le_def, BitVec.le_def]
    simp only [show (UInt32.ofNatCore 127 Char.utf8Size.proof_1).toBitVec.toNat = 127 from rfl]
    exact Nat.le_of_lt_succ h
  rw [if_pos hv]

theorem utf8Len_of_ascii (l : List Char) (h : ∀ c ∈ l, c.toNat < 128) :
    String.utf8Len l = l.length := by
  induction l with
  | nil => rfl
  | cons c cs ih =>
    rw [String.utf8Len_cons, utf8Size_of_lt_128 c (h c (by simp)),
      ih (fun c' hc' => h c' (by simp [hc']))]
    simp

theorem keepCount_le_length (r : List String) (b : Nat) : ∀ t, keepCount r b t ≤ r.length := by
  induction r with
  | nil => intro t; simp [keepCount]
  | cons m rest ih =>
    intro t
    simp only [keepCount, List.length_cons]
    split
    · simp
    · have := ih (t + estimate_tokens m)
      omega

theorem keepCount_budget (r : List String) (b : Nat) :
    ∀ t, t ≤ b → t + ((r.take (keepCount r b t)).map estimate_tokens).sum ≤ b := by
  induction r with
  | nil => intro t ht; simpa [keepCount]
  | cons m rest ih =>
    intro t ht
    simp only [keepCount]
    by_cases hover : t + estimate_tokens m > b
    · rw [if_pos hover]
      simpa
    · rw [if_neg hover]
      have h2 := ih (t + estimate_tokens m) (by omega)
      rw [List.take_succ_cons, List.map_cons, List.sum_cons]
      omega

theorem keepCount_all (r : List String) (b : Nat) :
    ∀ t, t + (r.map estimate_tokens).sum ≤ b → keepCount r b t = r.length := by
  induction r with
  | nil => intro t _; rfl
  | cons m rest ih =>
    intro t ht
    simp only [List.map_cons, List.sum_cons] at ht
    simp only [keepCount, List.length_cons]
    rw [if_neg (by omega), ih (t + estimate_tokens m) (by omega)]

theorem getLast?_drop_of_ne_nil {α : Type} (l : List α) (i : Nat) (h : l.drop i ≠ []) :
    (l.drop i).getLast? = l.getLast? := by
  obtain ⟨p, hp⟩ := List.drop_suffix i l
  conv_rhs => rw [← hp]
  exact (List.getLast?_append_of_ne_nil _ h).symm

theorem findEntry_nil (k : String) : findEntry [] k = none := rfl

theorem findEntry_cons (p : String × Tool) (rest : List (String × Tool)) (k : String) :
    findEntry (p :: rest) k = if p.1 = k then some p.2 else findEntry rest k := by
  by_cases hp : p.1 = k
  · simp [findEntry, List.find?_cons_of_pos, hp]
  · simp [findEntry, List.find?_cons_of_neg, hp]

theorem findEntry_map_self (l : List (String × Tool)) (k : String) (v : Tool)
    (hany : l.any (fun p => p.1 = k) = true) :
    findEntry (l.map (fun p => if p.1 = k then (k, v) else p)) k = some v := by
  induction l with
  | nil => simp at hany
  | cons p rest ih =>
    rw [List.map_cons, findEntry_cons]
    by_cases hp : p.1 = k
    · rw [if_pos hp]
      simp
    · rw [if_neg hp, if_neg hp]
      simp only [List.any_cons, Bool.or_eq_true] at hany
      rcases hany with h | h
      · exact absurd (by simpa using h) hp
      · exact ih h

theorem findEntry_map_other (l : List (String × Tool)) (k : String) (v : Tool)
    (k' : String) (hk : k' ≠ k) :
    findEntry (l.map (fun p => if p.1 = k then (k, v) else p)) k' = findEntry l k' := by
  induction l with
  | nil => rfl
  | cons p rest ih =>
    rw [List.map_cons, findEntry_cons, findEntry_cons]
    by_cases hp : p.1 = k
    · rw [if_pos hp, if_neg (show ¬(k, v).1 = k' from fun h => hk h.symm),
        if_neg (show ¬p.1 = k' from fun h => hk (h ▸ hp))]
      exact ih
    · rw [if_neg hp]
      by_cases hpk' : p.1 = k'
      · rw [if_pos hpk', if_pos hpk']
      · rw [if_neg hpk', if_neg hpk']
        exact ih

theorem findEntry_insertEntry (l : List (String × Tool)) (k : String) (v : Tool)
    (k' : String) :
    findEntry (insertEntry l k v) k' = if k' = k then some v else findEntry l k' := by
  by_cases hany : l.any (fun p => p.1 = k)
  · rw [insertEntry, if_pos hany]
    by_cases hk : k' = k
    · rw [if_pos hk, hk]
      exact findEntry_map_self l k v hany
    · rw [if_neg hk]
      exact findEntry_map_other l k v k' hk
  · rw [insertEntry, if_neg hany]
    have hnone : findEntry l k = none := by
      have hfind : List.find? (fun p => decide (p.1 = k)) l = none := by
        rw [List.find?_eq_none]
        intro p hp
        simp only [List.any_eq_true, not_exists, not_and] at hany
        simpa using hany p hp
      simp [findEntry, hfind]
    induction l with
    | nil =>
      rw [List.nil_append, findEntry_cons, findEntry_nil]
      by_cases hk : k' = k
      · rw [if_pos (show (k, v).1 = k' from hk.symm), if_pos hk]
      · rw [if_neg (fun h : (k, v).1 = k' => hk h.symm), if_neg hk]
    | cons p rest ih =>
      rw [List.cons_append, findEntry_cons, findEntry_cons]
      rw [findEntry_cons] at hnone
      simp only [List.any_cons, Bool.or_eq_true, not_or] at hany
      by_cases hpk : p.1 = k
      · rw [if_pos hpk] at hnone
        exact absurd hnone (by simp)
      · rw [if_neg hpk] at hnone
        by_cases hpk' : p.1 = k'
        · rw [if_pos hpk', if_pos hpk']
          by_cases hk : k' = k
          · exact absurd (hk ▸ hpk') hpk
          · rw [if_neg hk]
        · rw [if_neg hpk', if_neg hpk']
          exact ih hany.2 hnone

theorem keys_map_replace (l : List (String × Tool)) (k : String) (v : Tool) :
    (l.map (fun p => if p.1 = k then (k, v) else p)).map Prod.fst = l.map Prod.fst := by
  induction l with
  | nil => rfl
  | cons p rest ih =>
    simp only [List.map_cons]
    by_cases hp : p.1 = k
    · rw [if_pos hp, ih]
      simp [hp]
    · rw [if_neg hp, ih]

theorem keys_insertEntry (l : List (String × Tool)) (k : String) (v : Tool) :
    (insertEntry l k v).map Prod.fst =
      if l.any (fun p => p.1 = k) then l.map Prod.fst else l.map Prod.fst ++ [k] := by
  by_cases hany : l.any (fun p => p.1 = k)
  · rw [insertEntry, if_pos hany, if_pos hany, keys_map_replace]
  · rw [insertEntry, if_neg hany, if_neg hany, List.map_append]
    rfl

theorem nodup_keys_insertEntry (l : List (String × Tool)) (k : String) (v : Tool)
    (h : (l.map Prod.fst).Nodup) : ((insertEntry l k v).map Prod.fst).Nodup := by
  rw [keys_insertEntry]
  by_cases hany : l.any (fun p => p.1 = k)
  · rw [if_pos hany]
    exact h
  · rw [if_neg hany]
    have hk : k ∉ l.map Prod.fst := by
      intro hmem
      rcases List.mem_map.mp hmem with ⟨p, hp, hpk⟩
      exact hany (by rw [List.any_eq_true]; exact ⟨p, hp, by simpa using hpk⟩)
    rw [List.nodup_append]
    refine ⟨h, List.nodup_singleton k, ?_⟩
    intro x hx hxk
    rw [List.mem_singleton] at hxk
    exact hk (hxk ▸ hx)

theorem wellNamed_insertEntry (l : List (String × Tool)) (k : String) (v : Tool)
    (hv : v.name = k) (h : ∀ p ∈ l, (p.2).name = p.1) :
    ∀ p ∈ insertEntry l k v, (p.2).name = p.1 := by
  intro p hp
  rw [insertEntry] at hp
  by_cases hany : l.any (fun p => p.1 = k)
  · rw [if_pos hany] at hp
    rcases List.mem_map.mp hp with ⟨q, hq, hpq⟩
    by_cases hqk : q.1 = k
    · rw [if_pos hqk] at hpq
      rw [← hpq]
      exact hv
    · rw [if_neg hqk] at hpq
      rw [← hpq]
      exact h q hq
  · rw [if_neg hany] at hp
    rcases List.mem_append.mp hp with hin | hin
    · exact h p hin
    · rw [List.mem_singleton.mp hin]
      exact hv

theorem foldl_register_findEntry (ts : List Tool) (name : String) :
    ∀ r : ToolRunner,
      findEntry (ts.foldl ToolRunner.register r).tools name =
        (ts.reverse.find? (fun t => t.name = name)).or (findEntry r.tools name) := by
  induction ts with
  | nil =>
    intro r
    simp
  | cons t ts' ih =>
    intro r
    rw [List.foldl_cons, ih (r.register t), List.reverse_cons, List.find?_append]
    have hreg : findEntry (r.register t).tools name =
        if name = t.name then some t else findEntry r.tools name :=
      findEntry_insertEntry r.tools t.name t name
    rw [hreg]
    cases hfind : ts'.reverse.find? (fun t' => decide (t'.name = name)) with
    | some u => simp
    | none =>
      simp only [Option.none_or]
      by_cases ht : t.name = name
      · rw [if_pos ht.symm]
        simp [ht]
      · rw [if_neg (fun h : name = t.name => ht h.symm)]
        simp [ht]

theorem registry_invariant (ts : List Tool) :
    ∀ r : ToolRunner, (r.tools.map Prod.fst).Nodup → (∀ p ∈ r.tools, (p.2).name = p.1) →
      (((ts.foldl ToolRunner.register r).tools.map Prod.fst).Nodup ∧
        ∀ p ∈ (ts.foldl ToolRunner.register r).tools, (p.2).name = p.1) := by
  induction ts with
  | nil =>
    intro r h1 h2
    exact ⟨h1, h2⟩
  | cons t ts' ih =>
    intro r h1 h2
    exact ih (r.register t) (nodup_keys_insertEntry _ _ _ h1)
      (wellNamed_insertEntry _ _ _ rfl h2)

theorem defs_filter_length (l : List (String × Tool)) (name : String)
    (hnodup : (l.map Prod.fst).Nodup) (hwn : ∀ p ∈ l, (p.2).name = p.1) :
    ((l.map (fun p => (p.2).to_definition)).filter (fun d => d.name = name)).length =
      if l.any (fun p => p.1 = name) then 1 else 0 := by
  induction l with
  | nil => rfl
  | cons p rest ih =>
    have hhead : (p.2).to_definition.name = p.1 := hwn p (by simp)
    have hnodup' : (rest.map Prod.fst).Nodup := (List.nodup_cons.mp hnodup).2
    have hwn' : ∀ q ∈ rest, (q.2).name = q.1 := fun q hq => hwn q (by simp [hq])
    simp only [List.map_cons, List.filter_cons]
    by_cases hp : p.1 = name
    · rw [if_pos (by simpa using hhead.trans hp)]
      have hnotin : ¬rest.any (fun q => q.1 = name) := by
        intro hany
        rcases List.any_eq_true.mp hany with ⟨q, hq, hqname⟩
        have : p.1 ∈ rest.map Prod.fst := by
          rw [hp]
          exact List.mem_map.mpr ⟨q, hq, by simpa using hqname⟩
        exact (List.nodup_cons.mp hnodup).1 this
      rw [List.length_cons, ih hnodup' hwn', if_neg hnotin,
        if_pos (by rw [List.any_cons]; simp [hp])]
    · rw [if_neg (by simpa using fun h : (p.2).to_definition.name = name => hp (hhead ▸ h))]
      rw [ih hnodup' hwn']
      by_cases hrest : rest.any (fun q => q.1 = name)
      · rw [if_pos hrest, if_pos (by rw [List.any_cons]; simp [hrest])]
      · rw [if_neg hrest, if_neg (by rw [List.any_cons]; simp [hp, hrest])]

theorem findEntry_isSome (l : List (String × Tool)) (k : String) :
    (findEntry l k).isSome = l.any (fun p => p.1 = k) := by
  induction l with
  | nil => rfl
  | cons p rest ih =>
    rw [findEntry_cons, List.any_cons]
    by_cases hp : p.1 = k
    · simp [hp]
    · simp [hp, ih]

theorem runAux_zero {σ : Type} (ctx : Context)
    (client : σ → List Message → List ToolDefinition → Except Error LlmResponse × σ)
    (s : σ) (msgs : List Message) :
    AgentLoop.runAux ctx client 0 s msgs = (.error .MaxIterations, s) := rfl

theorem runAux_succ_no_tools {σ : Type} (ctx : Context)
    (client : σ → List Message → List ToolDefinition → Except Error LlmResponse × σ)
    (n : Nat) (s s' : σ) (msgs : List Message) (r : LlmResponse)
    (h : client s msgs ctx.tool_runner.definitions = (.ok r, s'))
    (hr : r.tool_calls = []) :
    AgentLoop.runAux ctx client (n + 1) s msgs =
      (.ok (Response.new (r.content.getD (""))), s') := by
  rw [AgentLoop.runAux, h]
  simp [LlmResponse.has_tool_calls, hr]

theorem runAux_succ_tools {σ : Type} (ctx : Context)
    (client : σ → List Message → List ToolDefinition → Except Error LlmResponse × σ)
    (n : Nat) (s s' : σ) (msgs : List Message) (r : LlmResponse)
    (h : client s msgs ctx.tool_runner.definitions = (.ok r, s'))
    (hr : r.tool_calls ≠ []) :
    AgentLoop.runAux ctx client (n + 1) s msgs =
      AgentLoop.runAux ctx client n s'
        (msgs ++ Message.assistant_with_tools (r.content.getD ("")) r.tool_calls ::
          r.tool_calls.map (fun tc => Message.tool_result tc.id (AgentLoop.execute_tool ctx tc))) := by
  rw [AgentLoop.runAux, h]
  simp [LlmResponse.has_tool_calls, List.isEmpty_iff, hr]

theorem runAux_all_tools {σ : Type} (ctx : Context)
    (client : σ → List Message → List ToolDefinition → Except Error LlmResponse × σ)
    (hall : ∀ (s : σ) (msgs : List Message), ∃ r s',
        client s msgs ctx.tool_runner.definitions = (.ok r, s') ∧ r.tool_calls ≠ []) :
    ∀ (n : Nat) (s : σ) (k : Nat) (msgs : List Message), ∃ sf,
      AgentLoop.runAux ctx (countingClient client) n (s, k) msgs =
        (.error .MaxIterations, (sf, k + n)) := by
  intro n
  induction n with
  | zero =>
    intro s k msgs
    exact ⟨s, by rw [runAux_zero, Nat.add_zero]⟩
  | succ n ih =>
    intro s k msgs
    obtain ⟨r, s', hc, hr⟩ := hall s msgs
    have hcc : countingClient client (s, k) msgs ctx.tool_runner.definitions =
        (.ok r, (s', k + 1)) := by
      simp [countingClient, hc]
    obtain ⟨sf, hf⟩ := ih s' (k + 1)
      (msgs ++ Message.assistant_with_tools (r.content.getD ("")) r.tool_calls ::
        r.tool_calls.map (fun tc => Message.tool_result tc.id (AgentLoop.execute_tool ctx tc)))
    refine ⟨sf, ?_⟩
    rw [runAux_succ_tools ctx (countingClient client) n (s, k) (s', k + 1) msgs r hcc hr, hf,
      show k + 1 + n = k + (n + 1) from by omega]

/-! Claim theorems -/

/-- C10: starting from an empty runner, after any sequence of register calls
the registry holds at most one tool per name (distinct keys, a same-name
registration silently replacing the earlier binding), execute dispatches to
the most recently registered tool of the requested name (unknown names fail
with the Tool error), and definitions lists exactly one definition per
distinct registered name. -/
theorem tool_registry_spec (ts : List Tool) (name : String) (args : Json) :
    ((ts.foldl ToolRunner.register ToolRunner.new).tools.map Prod.fst).Nodup ∧
    (∀ t, ts.reverse.find? (fun t' => t'.name = name) = some t →
        (ts.foldl ToolRunner.register ToolRunner.new).execute name args = t.exec args) ∧
    (ts.reverse.find? (fun t' => t'.name = name) = none →
        (ts.foldl ToolRunner.register ToolRunner.new).execute name args =
          .error (.Tool ("Unknown tool: " ++ name))) ∧
    (((ts.foldl ToolRunner.register ToolRunner.new).definitions.filter
          (fun d => d.name = name)).length =
        if ts.any (fun t => t.name = name) then 1 else 0) := by
  have hinv := registry_invariant ts ToolRunner.new (by simp [ToolRunner.new])
    (by simp [ToolRunner.new])
  have hfind := foldl_register_findEntry ts name ToolRunner.new
  have hnew : findEntry ToolRunner.new.tools name = none := rfl
  rw [hnew, Option.or_none] at hfind
  refine ⟨hinv.1, ?_, ?_, ?_⟩
  · intro t ht
    rw [ToolRunner.execute, hfind, ht]
  · intro hnone
    rw [ToolRunner.execute, hfind, hnone]
  · have hdefs := defs_filter_length (ts.foldl ToolRunner.register ToolRunner.new).tools name
      hinv.1 hinv.2
    rw [ToolRunner.definitions, hdefs]
    congr 1
    rw [← findEntry_isSome, hfind]
    cases hf : ts.reverse.find? (fun t => decide (t.name = name)) with
    | some u =>
      have hu1 := List.find?_some hf
      have hu2 := List.mem_of_find?_eq_some hf
      have hany : ts.any (fun t => decide (t.name = name)) = true :=
        List.any_eq_true.mpr ⟨u, List.mem_reverse.mp hu2, hu1⟩
      rw [hany]
      rfl
    | none =>
      have hall := List.find?_eq_none.mp hf
      have hany : ts.any (fun t => decide (t.name = name)) = false :=
        List.any_eq_false.mpr (fun x hx => hall x (List.mem_reverse.mpr hx))
      rw [hany]
      rfl

/-- C10, witness: registering two tools under the name "echo" makes execute
return the second one's result; an unregistered name fails as unknown. -/
theorem tool_registry_spec_witness :
    ([echoTool, echoTool2].foldl ToolRunner.register ToolRunner.new).execute ("echo")
        (Json.obj []) = .ok ("second") ∧
    (([] : List Tool).foldl ToolRunner.register ToolRunner.new).execute ("unknown_tool")
        (Json.obj []) = .error (.Tool ("Unknown tool: unknown_tool")) := by
  constructor
  · rw [(tool_registry_spec [echoTool, echoTool2] ("echo") (Json.obj [])).2.1 echoTool2 rfl]
    rfl
  · rw [(tool_registry_spec [] ("unknown_tool") (Json.obj [])).2.2.1 rfl]
    rfl

/-- C5, counterexample: the claim computes estimate_tokens from the character
length, but the code divides the UTF-8 byte length — on "üüü" (3 characters,
6 bytes) the code yields 2 while ceil(3/4) = 1. -/
theorem estimate_tokens_char_formula_false :
    estimate_tokens ("üüü") = 2 ∧
    (("üüü".length + CHARS_PER_TOKEN - 1) / CHARS_PER_TOKEN) = 1 ∧
    estimate_tokens ("üüü") ≠ ("üüü".length + CHARS_PER_TOKEN - 1) / CHARS_PER_TOKEN := by
  refine ⟨by decide, by decide, by decide⟩

/-- C5, amended: estimate_tokens(s) is the ceiling of the UTF-8 *byte* length
of s divided by 4 (which on ASCII-only text coincides with the claimed
character-length formula); estimate_tokens("") = 0, and the function is
monotonic — extending a text never decreases its estimate. -/
theorem estimate_tokens_spec :
    estimate_tokens ("") = 0 ∧
    (∀ s : String, estimate_tokens s = (s.utf8ByteSize + CHARS_PER_TOKEN - 1) / CHARS_PER_TOKEN) ∧
    (∀ s t : String, estimate_tokens s ≤ estimate_tokens (s ++ t)) ∧
    (∀ s : String, (∀ c ∈ s.data, c.toNat < 128) →
      estimate_tokens s = (s.length + CHARS_PER_TOKEN - 1) / CHARS_PER_TOKEN) := by
  refine ⟨rfl, fun s => rfl, fun s t => ?_, fun s h => ?_⟩
  · have hb := utf8ByteSize_append s t
    simp only [estimate_tokens, CHARS_PER_TOKEN]
    exact Nat.div_le_div_right (by omega)
  · have hl : s.utf8ByteSize = s.length := by
      rw [utf8ByteSize_data, utf8Len_of_ascii s.data h]
      rfl
    simp only [estimate_tokens, hl]

/-- C5, witness: the amended theorem at the spec's own examples. -/
theorem estimate_tokens_spec_witness :
    estimate_tokens ("Hello, world!") = 4 ∧
    estimate_tokens ("Hi") = 1 ∧
    estimate_tokens ("Hi") ≤ estimate_tokens ("Hi" ++ "!") := by
  refine ⟨?_, ?_, estimate_tokens_spec.2.2.1 ("Hi") ("!")⟩
  · rw [estimate_tokens_spec.2.2.2 ("Hello, world!") (by decide)]
    decide
  · rw [estimate_tokens_spec.2.2.2 ("Hi") (by decide)]
    decide

/-- C4: build_messages returns exactly one system message, then the last
min(len(h), 40) messages of h in original order (always a suffix — the most
recent tail, the retained index window a function of len(h) and the constant
alone), then one user message carrying the current text; its length is
min(len(h), 40) + 2. -/
theorem build_messages_spec (ctx : Context) (history : List Message) (current : String) :
    ctx.build_messages history current =
      Message.system ctx.build_system_prompt ::
        (history.drop (history.length - min history.length MAX_HISTORY_MESSAGES) ++
          [Message.user current]) ∧
    (ctx.build_messages history current).length =
      min history.length MAX_HISTORY_MESSAGES + 2 ∧
    List.IsSuffix
      (history.drop (history.length - min history.length MAX_HISTORY_MESSAGES)) history := by
  have hwin : (if history.length > MAX_HISTORY_MESSAGES then
        history.drop (history.length - MAX_HISTORY_MESSAGES) else history) =
      history.drop (history.length - min history.length MAX_HISTORY_MESSAGES) := by
    by_cases hl : history.length > MAX_HISTORY_MESSAGES
    · rw [if_pos hl]
      congr 1
      omega
    · rw [if_neg hl]
      have h0 : history.length - min history.length MAX_HISTORY_MESSAGES = 0 := by omega
      rw [h0, List.drop_zero]
  refine ⟨?_, ?_, List.drop_suffix _ _⟩
  · simp only [Context.build_messages, hwin, List.cons_append]
  · simp [Context.build_messages, hwin]
    omega

/-- C6: truncate_history returns a contiguous suffix of the input whose total
token estimate is within budget; the whole list survives when it fits, and a
non-empty result always ends with the most recent message. -/
theorem truncate_history_spec (ms : List String) (b : Nat) :
    List.IsSuffix (truncate_history ms b) ms ∧
    ((truncate_history ms b).map estimate_tokens).sum ≤ b ∧
    ((ms.map estimate_tokens).sum ≤ b → truncate_history ms b = ms) ∧
    (truncate_history ms b ≠ [] → (truncate_history ms b).getLast? = ms.getLast?) := by
  refine ⟨List.drop_suffix _ _, ?_, ?_, ?_⟩
  · have hbud := keepCount_budget ms.reverse b 0 (Nat.zero_le b)
    have hk : keepCount ms.reverse b 0 ≤ ms.length := by
      have := keepCount_le_length ms.reverse b 0
      simpa using this
    have hrev : (ms.drop (ms.length - keepCount ms.reverse b 0)).reverse =
        ms.reverse.take (keepCount ms.reverse b 0) := by
      rw [List.reverse_drop]
      congr 1
      omega
    have hsum : ((truncate_history ms b).map estimate_tokens).sum =
        ((ms.reverse.take (keepCount ms.reverse b 0)).map estimate_tokens).sum := by
      rw [truncate_history, ← hrev, List.map_reverse, List.sum_reverse]
    rw [hsum]
    omega
  · intro hall
    have hlen : keepCount ms.reverse b 0 = ms.length := by
      have := keepCount_all ms.reverse b 0
        (by simpa [List.map_reverse, List.sum_reverse] using hall)
      simpa using this
    rw [truncate_history, hlen]
    simp
  · intro hne
    exact getLast?_drop_of_ne_nil ms _ hne

/-- C6, witness: the spec's own test — the four messages survive a budget of
1000 whole; with budget 10 a non-empty strict suffix remains, still ending in
the most recent message. -/
theorem truncate_history_spec_witness :
    truncate_history
        (["First message", "Second message", "Third message", "Fourth message"]) 1000 =
      ["First message", "Second message", "Third message", "Fourth message"] ∧
    (truncate_history
        (["First message", "Second message", "Third message", "Fourth message"]) 10).getLast? =
      some ("Fourth message") := by
  constructor
  · exact (truncate_history_spec
      (["First message", "Second message", "Third message", "Fourth message"]) 1000).2.2.1
      (by decide)
  · rw [(truncate_history_spec
      (["First message", "Second message", "Third message", "Fourth message"]) 10).2.2.2
      (by decide)]
    decide

/-- C7: is_expired is false when no expiry is known; with expiry t it is true
exactly when t minus the 5-minute buffer is not after the current time — so
true 1 hour past expiry and 2 minutes before expiry, false when expiry is more
than 5 minutes away. -/
theorem is_expired_spec (now : Int) (c : Credentials) :
    (c.expires_at = none → Credentials.is_expired now c = false) ∧
    (∀ t, c.expires_at = some t → (Credentials.is_expired now c = true ↔ t - 300 ≤ now)) ∧
    (c.expires_at = some (now - 3600) → Credentials.is_expired now c = true) ∧
    (c.expires_at = some (now + 120) → Credentials.is_expired now c = true) ∧
    (∀ t, c.expires_at = some t → now + 300 < t → Credentials.is_expired now c = false) := by
  refine ⟨fun h => ?_, fun t h => ?_, fun h => ?_, fun h => ?_, fun t h hf => ?_⟩
  · simp only [Credentials.is_expired, h]
  · simp only [Credentials.is_expired, h, decide_eq_true_iff]
    omega
  · simp only [Credentials.is_expired, h]
    exact decide_eq_true (by omega)
  · simp only [Credentials.is_expired, h]
    exact decide_eq_true (by omega)
  · simp only [Credentials.is_expired, h]
    exact decide_eq_false (by omega)

/-- C7, witness: the expiry rule at now = 0 on concrete credentials. -/
theorem is_expired_spec_witness :
    Credentials.is_expired 0 ⟨"tok", none, "Bearer", none, none⟩ = false ∧
    Credentials.is_expired 0 ⟨"tok", none, "Bearer", some (-3600), none⟩ = true ∧
    Credentials.is_expired 0 ⟨"tok", none, "Bearer", some 120, none⟩ = true ∧
    Credentials.is_expired 0 ⟨"tok", none, "Bearer", some 3600, none⟩ = false := by
  refine ⟨(is_expired_spec 0 _).1 rfl, ?_, ?_, ?_⟩
  · exact ((is_expired_spec 0 ⟨"tok", none, "Bearer", some (-3600), none⟩).2.2.1) (by norm_num)
  · exact ((is_expired_spec 0 ⟨"tok", none, "Bearer", some 120, none⟩).2.2.2.1) (by norm_num)
  · exact ((is_expired_spec 0 ⟨"tok", none, "Bearer", some 3600, none⟩).2.2.2.2) 3600 rfl
      (by norm_num)

/-- C1: each iteration of AgentLoop::run — a response without tool calls ends
the loop successfully with that response's text; a response with tool calls
appends one assistant message carrying exactly those requests plus one
tool-result message per request in request order, correlated by id, and
recurses; and against a client whose every response carries tool calls, run
with max_iterations m fails with MaxIterations after exactly m backend calls
(the call counter of the instrumented client reaches m). -/
theorem agent_loop_iteration_spec :
    (∀ (σ : Type)
        (client : σ → List Message → List ToolDefinition → Except Error LlmResponse × σ)
        (ctx : Context) (n : Nat) (s s' : σ) (msgs : List Message) (r : LlmResponse),
        client s msgs ctx.tool_runner.definitions = (.ok r, s') →
        r.tool_calls = [] →
        AgentLoop.runAux ctx client (n + 1) s msgs =
          (.ok (Response.new (r.content.getD (""))), s')) ∧
    (∀ (σ : Type)
        (client : σ → List Message → List ToolDefinition → Except Error LlmResponse × σ)
        (ctx : Context) (n : Nat) (s s' : σ) (msgs : List Message) (r : LlmResponse),
        client s msgs ctx.tool_runner.definitions = (.ok r, s') →
        r.tool_calls ≠ [] →
        AgentLoop.runAux ctx client (n + 1) s msgs =
          AgentLoop.runAux ctx client n s'
            (msgs ++ Message.assistant_with_tools (r.content.getD ("")) r.tool_calls ::
              r.tool_calls.map
                (fun tc => Message.tool_result tc.id (AgentLoop.execute_tool ctx tc)))) ∧
    (∀ (σ : Type)
        (client : σ → List Message → List ToolDefinition → Except Error LlmResponse × σ)
        (ctx : Context) (m : Nat) (s : σ) (message : Message),
        (∀ (s₀ : σ) (msgs : List Message), ∃ r s',
            client s₀ msgs ctx.tool_runner.definitions = (.ok r, s') ∧ r.tool_calls ≠ []) →
        ∃ sf, AgentLoop.run ⟨countingClient client, m⟩ (s, 0) message ctx =
          (.error .MaxIterations, (sf, m))) := by
  refine ⟨?_, ?_, ?_⟩
  · intro σ client ctx n s s' msgs r h hr
    exact runAux_succ_no_tools ctx client n s s' msgs r h hr
  · intro σ client ctx n s s' msgs r h hr
    exact runAux_succ_tools ctx client n s s' msgs r h hr
  · intro σ client ctx m s message hall
    obtain ⟨sf, hf⟩ := runAux_all_tools ctx client hall m s 0
      (ctx.build_messages [] message.content)
    exact ⟨sf, by rw [AgentLoop.run] at *; rw [hf, Nat.zero_add]⟩

/-- C1, witness: the spec's stub runs — a text-only response ends the loop at
once with that text; the tool-calling stub makes the loop append the assistant
and tool-result messages and recurse; the always-tool stub with
max_iterations 3 fails with MaxIterations after exactly 3 backend calls. -/
theorem agent_loop_iteration_spec_witness :
    AgentLoop.runAux testContext (textClient ("Hello, human!")) 1 ()
        (testContext.build_messages [] ("Hi there")) =
      (.ok (Response.new ("Hello, human!")), ()) ∧
    AgentLoop.runAux testContext toolClient 1 () [] =
      AgentLoop.runAux testContext toolClient 0 ()
        ([] ++ Message.assistant_with_tools ("") toolCallResponse.tool_calls ::
          toolCallResponse.tool_calls.map
            (fun tc => Message.tool_result tc.id (AgentLoop.execute_tool testContext tc))) ∧
    (∃ sf, AgentLoop.run ⟨countingClient toolClient, 3⟩ ((), 0) (Message.user ("Hi"))
        testContext = (.error .MaxIterations, (sf, 3))) := by
  refine ⟨?_, ?_, ?_⟩
  · exact agent_loop_iteration_spec.1 Unit (textClient ("Hello, human!")) testContext 0 () ()
      (testContext.build_messages [] ("Hi there")) (LlmResponse.text ("Hello, human!")) rfl rfl
  · exact agent_loop_iteration_spec.2.1 Unit toolClient testContext 0 () () []
      toolCallResponse rfl (by simp [toolCallResponse])
  · exact agent_loop_iteration_spec.2.2 Unit toolClient testContext 3 () (Message.user ("Hi"))
      (fun s₀ msgs => ⟨toolCallResponse, s₀, rfl, by simp [toolCallResponse]⟩)

/-- C3: an unknown tool name yields the recoverable Tool error (no dispatch);
inside the loop every tool-execution error becomes the tool-result text
`Error: <description>`; and a tool-calling response always leads to the next
iteration — tool failures never escape the loop. -/
theorem tool_failure_recovery_spec :
    (∀ (r : ToolRunner) (name : String) (args : Json),
        r.has name = false →
        r.execute name args = .error (.Tool ("Unknown tool: " ++ name))) ∧
    (∀ (ctx : Context) (tc : ToolCallRequest) (e : Error),
        ctx.tool_runner.execute tc.name tc.arguments = .error e →
        AgentLoop.execute_tool ctx tc = "Error: " ++ e.display) ∧
    (∀ (σ : Type)
        (client : σ → List Message → List ToolDefinition → Except Error LlmResponse × σ)
        (ctx : Context) (n : Nat) (s s' : σ) (msgs : List Message) (r : LlmResponse),
        client s msgs ctx.tool_runner.definitions = (.ok r, s') →
        r.tool_calls ≠ [] →
        AgentLoop.runAux ctx client (n + 1) s msgs =
          AgentLoop.runAux ctx client n s'
            (msgs ++ Message.assistant_with_tools (r.content.getD ("")) r.tool_calls ::
              r.tool_calls.map
                (fun tc => Message.tool_result tc.id (AgentLoop.execute_tool ctx tc)))) := by
  refine ⟨?_, ?_, ?_⟩
  · intro r name args h
    rw [ToolRunner.execute]
    cases hf : findEntry r.tools name with
    | none => rfl
    | some t =>
      rw [ToolRunner.has, hf] at h
      exact absurd h (by simp)
  · intro ctx tc e h
    rw [AgentLoop.execute_tool, h]
  · intro σ client ctx n s s' msgs r h hr
    exact runAux_succ_tools ctx client n s s' msgs r h hr

/-- C3, witness: the empty registry rejects "unknown_tool" as unknown; the
failing tool's error is folded into the text "Error: Tool error: kaboom"; the
loop recurses past the failing call. -/
theorem tool_failure_recovery_spec_witness :
    ToolRunner.new.execute ("unknown_tool") Json.null =
      .error (.Tool ("Unknown tool: unknown_tool")) ∧
    AgentLoop.execute_tool toolContext ⟨"tc_1", "boom", Json.null⟩ =
      "Error: Tool error: kaboom" ∧
    AgentLoop.runAux toolContext boomClient 1 () [] =
      AgentLoop.runAux toolContext boomClient 0 ()
        ([] ++ Message.assistant_with_tools ("") boomCallResponse.tool_calls ::
          boomCallResponse.tool_calls.map
            (fun tc => Message.tool_result tc.id (AgentLoop.execute_tool toolContext tc))) := by
  refine ⟨?_, ?_, ?_⟩
  · rw [tool_failure_recovery_spec.1 ToolRunner.new ("unknown_tool") Json.null rfl]
    rfl
  · rw [tool_failure_recovery_spec.2.1 toolContext ⟨"tc_1", "boom", Json.null⟩
      (.Tool ("kaboom")) rfl]
    rfl
  · exact tool_failure_recovery_spec.2.2 Unit boomClient toolContext 0 () () []
      boomCallResponse rfl (by simp [boomCallResponse])

/-- C2, code evaluation at the failing input: AgentLoop::run (line 28 of
src/agent/loop_impl.rs) passes the empty slice to build_messages, so the first
backend call receives build_messages([], m) — [system, user(m)] — regardless
of any caller-held history; with the one-message history [user("hi")] the
claimed first-iteration sequence build_messages(h, m) has a different length,
so the claim fails on the code as written (its callers in src/main.rs and
src/adapters/cli.rs pass a history argument that this signature cannot
accept). -/
theorem run_ignores_history :
    (AgentLoop.run ⟨recordingClient (textClient ("ans")), 10⟩ ((), [])
        (Message.user ("Q")) testContext).2.2 =
      [testContext.build_messages [] ("Q")] ∧
    (testContext.build_messages [Message.user ("hi")] ("Q")).length = 2 + 1 ∧
    (testContext.build_messages [] ("Q")).length = 2 ∧
    testContext.build_messages [Message.user ("hi")] ("Q") ≠
      testContext.build_messages [] ("Q") := by
  refine ⟨rfl, ?_, ?_, ?_⟩
  · simp [Context.build_messages, MAX_HISTORY_MESSAGES]
  · simp [Context.build_messages, MAX_HISTORY_MESSAGES]
  · intro h
    have := congrArg List.length h
    simp [Context.build_messages, MAX_HISTORY_MESSAGES] at this

/-- C9: a successful refresh builds (and, inside get_valid_token, persists)
credentials whose refresh_token is the endpoint's when supplied and the old
one otherwise — a refresh never discards the ability to refresh again; and a
failed refresh falls through to full reauthorization instead of returning the
refresh error. -/
theorem refresh_token_spec :
    (∀ (now : Int) (tr : TokenResponse) (r rt : String),
        tr.refresh_token = some rt →
        GeminiAuthProvider.refresh_token now (.ok tr) r =
          .ok (Credentials.new now tr.access_token (some rt) tr.expires_in)) ∧
    (∀ (now : Int) (tr : TokenResponse) (r : String),
        tr.refresh_token = none →
        GeminiAuthProvider.refresh_token now (.ok tr) r =
          .ok (Credentials.new now tr.access_token (some r) tr.expires_in)) ∧
    (∀ (now : Int) (creds : Credentials) (rtok : String) (tr : TokenResponse)
        (auth : Except Error Credentials),
        Credentials.is_expired now creds = true →
        creds.refresh_token = some rtok →
        GeminiAuthProvider.get_valid_token now (.ok (some creds)) (.ok tr) auth =
          ⟨.ok (Credentials.new now tr.access_token
              (tr.refresh_token.orElse (fun _ => some rtok)) tr.expires_in).access_token,
            [Credentials.new now tr.access_token
              (tr.refresh_token.orElse (fun _ => some rtok)) tr.expires_in]⟩) ∧
    (∀ (now : Int) (creds : Credentials) (rtok : String) (e : Error)
        (auth : Except Error Credentials),
        Credentials.is_expired now creds = true →
        creds.refresh_token = some rtok →
        GeminiAuthProvider.get_valid_token now (.ok (some creds)) (.error e) auth =
          authorizeOutcome auth) := by
  refine ⟨?_, ?_, ?_, ?_⟩
  · intro now tr r rt h
    simp only [GeminiAuthProvider.refresh_token, h]
    rfl
  · intro now tr r h
    simp only [GeminiAuthProvider.refresh_token, h]
    rfl
  · intro now creds rtok tr auth hexp hr
    simp only [GeminiAuthProvider.get_valid_token, hexp, hr]
    rfl
  · intro now creds rtok e auth hexp hr
    simp only [GeminiAuthProvider.get_valid_token, hexp, hr]
    rfl

/-- C9, witness: concrete refreshes at now = 0 — a response carrying a new
refresh token replaces the old one, a response omitting it keeps "r0"; the
refreshed credentials are what get_valid_token persists and returns; a failed
refresh ends in the authorize path's outcome. -/
theorem refresh_token_spec_witness :
    GeminiAuthProvider.refresh_token 0 (.ok ⟨"a2", some ("r2"), some 3600, "Bearer", none⟩)
        ("r0") = .ok (Credentials.new 0 ("a2") (some ("r2")) (some 3600)) ∧
    GeminiAuthProvider.refresh_token 0 (.ok ⟨"a2", none, some 3600, "Bearer", none⟩)
        ("r0") = .ok (Credentials.new 0 ("a2") (some ("r0")) (some 3600)) ∧
    GeminiAuthProvider.get_valid_token 0
        (.ok (some ⟨"old", some ("r0"), "Bearer", some (-100), none⟩))
        (.ok ⟨"a2", none, some 3600, "Bearer", none⟩)
        (.error (.OAuth ("no browser"))) =
      ⟨.ok ("a2"), [Credentials.new 0 ("a2") (some ("r0")) (some 3600)]⟩ ∧
    GeminiAuthProvider.get_valid_token 0
        (.ok (some ⟨"old", some ("r0"), "Bearer", some (-100), none⟩))
        (.error (.OAuth ("endpoint down")))
        (.ok ⟨"fresh", some ("rNew"), "Bearer", some 7200, none⟩) =
      ⟨.ok ("fresh"), [⟨"fresh", some ("rNew"), "Bearer", some 7200, none⟩]⟩ := by
  refine ⟨?_, ?_, ?_, ?_⟩
  · exact refresh_token_spec.1 0 ⟨"a2", some ("r2"), some 3600, "Bearer", none⟩ ("r0") ("r2") rfl
  · exact refresh_token_spec.2.1 0 ⟨"a2", none, some 3600, "Bearer", none⟩ ("r0") rfl
  · rw [refresh_token_spec.2.2.1 0 ⟨"old", some ("r0"), "Bearer", some (-100), none⟩ ("r0")
      ⟨"a2", none, some 3600, "Bearer", none⟩ (.error (.OAuth ("no browser")))
      (by decide) rfl]
    rfl
  · rw [refresh_token_spec.2.2.2 0 ⟨"old", some ("r0"), "Bearer", some (-100), none⟩ ("r0")
      (.OAuth ("endpoint down")) (.ok ⟨"fresh", some ("rNew"), "Bearer", some 7200, none⟩)
      (by decide) rfl]
    rfl

/-- C8: parse_callback_request settles the request line's query, for every
expected-state argument, in this order — an error parameter is a failure
carrying the error and its description; then a supplied expected state whose
received state is missing or different is a failure naming the mismatch; then
a missing code is a failure; otherwise success carrying exactly the query's
code value alongside the received state. -/
theorem parse_callback_request_spec :
    ∀ (request : String) (expected : Option String) (fl : String) (parts : List String)
      (path : String) (pairs : List (String × String)),
      firstLine request = some fl →
      split_whitespace fl = parts →
      ¬ parts.length < 2 →
      parts.getD 1 ("") = path →
      (match urlQuery path with
        | none => ([] : List (String × String))
        | some q => queryPairs q) = pairs →
      ((∀ e, paramLast pairs ("error") = some e →
          parse_callback_request request expected =
            .error (.OAuth ("Authorization failed: " ++ e ++ " - " ++
              (paramLast pairs ("error_description")).getD ("Unknown error")))) ∧
       (paramLast pairs ("error") = none →
          ∀ exp, expected = some exp →
            (paramLast pairs ("state") = none →
              parse_callback_request request expected =
                .error (.OAuth ("Missing state parameter"))) ∧
            (∀ s, paramLast pairs ("state") = some s → ¬ s = exp →
              parse_callback_request request expected =
                .error (.OAuth ("State mismatch: expected " ++ exp ++ ", got " ++ s)))) ∧
       (paramLast pairs ("error") = none →
          (expected = none ∨
            (∃ exp, expected = some exp ∧ paramLast pairs ("state") = some exp)) →
          paramLast pairs ("code") = none →
          parse_callback_request request expected =
            .error (.OAuth ("Missing authorization code"))) ∧
       (paramLast pairs ("error") = none →
          (expected = none ∨
            (∃ exp, expected = some exp ∧ paramLast pairs ("state") = some exp)) →
          ∀ c, paramLast pairs ("code") = some c →
            parse_callback_request request expected = .ok ⟨c, paramLast pairs ("state")⟩)) := by
  intro request expected fl parts path pairs hfl hparts hlen hpath hpairs
  have hbody : parse_callback_request request expected =
      (match paramLast pairs ("error") with
       | some err =>
         .error (.OAuth ("Authorization failed: " ++ err ++ " - " ++
           (paramLast pairs ("error_description")).getD ("Unknown error")))
       | none =>
         match (match expected with
           | some expctd =>
             (match paramLast pairs ("state") with
              | some s =>
                if s = expctd then none
                else some (Error.OAuth ("State mismatch: expected " ++ expctd ++ ", got " ++ s))
              | none => some (Error.OAuth ("Missing state parameter")))
           | none => none) with
         | some e => .error e
         | none => extractCode (paramLast pairs ("code")) (paramLast pairs ("state"))) := by
    simp only [parse_callback_request, hfl, hparts]
    rw [if_neg hlen]
    simp only [hpath, hpairs]
  refine ⟨?_, ?_, ?_, ?_⟩
  · intro e he
    rw [hbody]
    simp only [he]
  · intro hnoerr exp hexp
    constructor
    · intro hnostate
      rw [hbody]
      simp only [hnoerr, hexp, hnostate]
    · intro s hs hne
      rw [hbody]
      simp only [hnoerr, hexp, hs]
      rw [if_neg hne]
  · intro hnoerr hstate hnocode
    rcases hstate with hnone | ⟨exp, hexp, hst⟩
    · rw [hbody]
      simp only [hnoerr, hnone, hnocode, extractCode]
    · rw [hbody]
      simp only [hnoerr, hexp, hst, hnocode, extractCode]
      simp
  · intro hnoerr hstate c hcode
    rcases hstate with hnone | ⟨exp, hexp, hst⟩
    · rw [hbody]
      simp only [hnoerr, hnone, hcode, extractCode]
    · rw [hbody]
      simp only [hnoerr, hexp, hst, hcode, extractCode]
      simp

/-- C8, witness: the four spec examples — code+matching state succeeds with
the code; code without an expected state succeeds; an error parameter fails
carrying "access_denied" and its description; a state mismatch fails naming
both states. -/
theorem parse_callback_request_spec_witness :
    parse_callback_request
        ("GET /callback?code=abc123&state=xyz789 HTTP/1.1\r\nHost: localhost\r\n\r\n")
        (some ("xyz789")) = .ok ⟨"abc123", some ("xyz789")⟩ ∧
    parse_callback_request ("GET /callback?code=abc123 HTTP/1.1\r\n\r\n") none =
      .ok ⟨"abc123", none⟩ ∧
    parse_callback_request
        ("GET /callback?error=access_denied&error_description=User+denied HTTP/1.1\r\n\r\n")
        none = .error (.OAuth ("Authorization failed: access_denied - User denied")) ∧
    parse_callback_request ("GET /callback?code=abc&state=wrong HTTP/1.1\r\n\r\n")
        (some ("expected")) =
      .error (.OAuth ("State mismatch: expected expected, got wrong")) := by
  refine ⟨?_, ?_, ?_, ?_⟩
  · exact (parse_callback_request_spec
      ("GET /callback?code=abc123&state=xyz789 HTTP/1.1\r\nHost: localhost\r\n\r\n")
      (some ("xyz789"))
      ("GET /callback?code=abc123&state=xyz789 HTTP/1.1")
      (["GET", "/callback?code=abc123&state=xyz789", "HTTP/1.1"])
      ("/callback?code=abc123&state=xyz789")
      ([("code", "abc123"), ("state", "xyz789")])
      (by rfl) (by rfl) (by decide) (by rfl) (by rfl)).2.2.2 (by rfl) (Or.inr ⟨"xyz789", rfl, (by rfl)⟩) ("abc123") (by rfl)
  · exact (parse_callback_request_spec
      ("GET /callback?code=abc123 HTTP/1.1\r\n\r\n") none
      ("GET /callback?code=abc123 HTTP/1.1")
      (["GET", "/callback?code=abc123", "HTTP/1.1"])
      ("/callback?code=abc123")
      ([("code", "abc123")])
      (by rfl) (by rfl) (by decide) (by rfl) (by rfl)).2.2.2 (by rfl) (Or.inl rfl) ("abc123") (by rfl)
  · exact (parse_callback_request_spec
      ("GET /callback?error=access_denied&error_description=User+denied HTTP/1.1\r\n\r\n")
      none
      ("GET /callback?error=access_denied&error_description=User+denied HTTP/1.1")
      (["GET", "/callback?error=access_denied&error_description=User+denied", "HTTP/1.1"])
      ("/callback?error=access_denied&error_description=User+denied")
      ([("error", "access_denied"), ("error_description", "User denied")])
      (by rfl) (by rfl) (by decide) (by rfl) (by rfl)).1 ("access_denied") (by rfl)
  · exact ((parse_callback_request_spec
      ("GET /callback?code=abc&state=wrong HTTP/1.1\r\n\r\n")
      (some ("expected"))
      ("GET /callback?code=abc&state=wrong HTTP/1.1")
      (["GET", "/callback?code=abc&state=wrong", "HTTP/1.1"])
      ("/callback?code=abc&state=wrong")
      ([("code", "abc"), ("state", "wrong")])
      (by rfl) (by rfl) (by decide) (by rfl) (by rfl)).2.1 (by rfl) ("expected") rfl).2 ("wrong") (by rfl)
      (by decide)

end Leo
